import Mathlib

/-!
# Audentes — interactive scripts (`script.js`)

A shallow embedding of the page behaviours of `script.js` and the properties
proved about them.

Modelling conventions.

* A JavaScript `Date` is its time value: an integer number of milliseconds
  since 1970-01-01T00:00:00Z (`Int`).  Comparing two dates with `>` / `<=`
  compares the time values, subtracting them gives the difference in
  milliseconds.
* `new Date('YYYY-MM-DD')` (the date-only ISO form) is midnight UTC of that
  day; `utcDate` computes its time value.
* Number arithmetic that divides (`elapsed / total`, the helix opacities) is
  carried out in exact rationals (`ℚ`).
* A `classList` is the ordered list of its tokens, without repetition.
* A page element that may be absent is an `Option` (or a presence flag when
  only its presence matters).
-/

namespace Audentes

/-! ## Calendar dates -/

/-- Gregorian leap-year rule. -/
def isLeapYear (y : Nat) : Bool :=
  (y % 4 == 0 && y % 100 != 0) || y % 400 == 0

/-- Number of days of month `m` (1-based) of year `y`. -/
def daysInMonth (y m : Nat) : Nat :=
  if m == 2 then (if isLeapYear y then 29 else 28)
  else if m == 4 || m == 6 || m == 9 || m == 11 then 30
  else 31

/-- Days between 1970-01-01 and January 1st of year `y` (for `y ≥ 1970`). -/
def daysBeforeYear (y : Nat) : Nat :=
  ((List.range (y - 1970)).map (fun k => if isLeapYear (1970 + k) then 366 else 365)).sum

/-- Days between January 1st of year `y` and the first day of month `m`. -/
def daysBeforeMonth (y m : Nat) : Nat :=
  ((List.range (m - 1)).map (fun k => daysInMonth y (k + 1))).sum

/-- Milliseconds in a day. -/
def msPerDay : Nat := 86400000

/-- Time value of `new Date('y-m-d')`: midnight UTC of that day, in
milliseconds since the epoch. -/
def utcDate (y m d : Nat) : Int :=
  (((daysBeforeYear y + daysBeforeMonth y m + (d - 1)) * msPerDay : Nat) : Int)

/-! ## Timeline progress (`initTimelineProgress`) -/

/-- A milestone of the timeline: `{ deadline, id }`. -/
structure Milestone where
  deadline : Int
  id : Nat
  deriving DecidableEq, Repr

instance : Inhabited Milestone := ⟨⟨0, 0⟩⟩

/-- The constant `milestones` array of `initTimelineProgress`. -/
def milestones : List Milestone :=
  [ { deadline := utcDate 2026 2 20, id := 1 },
    { deadline := utcDate 2026 3 25, id := 2 },
    { deadline := utcDate 2026 5 5, id := 3 },
    { deadline := utcDate 2026 6 29, id := 4 },
    { deadline := utcDate 2026 9 30, id := 5 } ]

/-- The project-start anchor `new Date('2026-01-01')`. -/
def projectStart : Int := utcDate 2026 1 1

/-- The element `milestones[k]` (only read at indices inside the array). -/
def milestoneAt (k : Nat) : Milestone := milestones.getD k default

/-- The three status classes the status loop can stamp on a milestone. -/
inductive Status where
  | completed
  | active
  | upcoming
  deriving DecidableEq, Repr

/-- The branch the body of the status loop takes for milestone `m` at index
`i`:
`if (now > m.deadline) completed
 else if (i === 0 || now > milestones[i - 1].deadline) active
 else upcoming`. -/
def milestoneStatus (now : Int) (m : Milestone) (i : Nat) : Status :=
  if now > m.deadline then Status.completed
  else if i = 0 ∨ now > (milestoneAt (i - 1)).deadline then Status.active
  else Status.upcoming

/-- Pairs every element of a list with its index, starting at `i`, the way
`forEach`, `filter` and `findIndex` hand `(m, i)` to their callbacks. -/
def withIndexFrom {α : Type} : List α → Nat → List (α × Nat)
  | [], _ => []
  | a :: rest, i => (a, i) :: withIndexFrom rest (i + 1)

/-- The classification made by `milestones.forEach((m, i) => ...)`, milestone
by milestone, in array order. -/
def statusLoop (now : Int) : List Status :=
  (withIndexFrom milestones 0).map (fun p => milestoneStatus now p.1 p.2)

/-- The value of
`milestones.filter((m) => now > m.deadline).length`. -/
def completedCount (now : Int) : Nat :=
  (milestones.filter (fun m => decide (now > m.deadline))).length

/-- The callback of `findIndex`:
`now <= m.deadline && (i === 0 || now > milestones[i - 1].deadline)`. -/
def isActiveAt (now : Int) (m : Milestone) (i : Nat) : Bool :=
  decide (now ≤ m.deadline) && (decide (i = 0) || decide (now > (milestoneAt (i - 1)).deadline))

/-- The method `Array.prototype.findIndex`: the first index whose element satisfies the
callback, `-1` when there is none. -/
def findIndexFrom {α : Type} (p : α → Nat → Bool) : List α → Nat → Int
  | [], _ => -1
  | a :: rest, i => if p a i then (i : Int) else findIndexFrom p rest (i + 1)

/-- The value of `milestones.findIndex(...)`. -/
def activeIndex (now : Int) : Int :=
  findIndexFrom (isActiveAt now) milestones 0

/-- The value `prevDeadline` of the progress computation:
`activeIndex > 0 ? milestones[activeIndex - 1].deadline : new Date('2026-01-01')`. -/
def prevDeadline (ai : Int) : Int :=
  if ai > 0 then (milestoneAt (ai.toNat - 1)).deadline else projectStart

/-- The value `currentDeadline = milestones[activeIndex].deadline`. -/
def currentDeadline (ai : Int) : Int := (milestoneAt ai.toNat).deadline

/-- The value `withinTask = Math.min(Math.max(elapsed / total, 0), 1)` for the active
milestone at index `ai`. -/
def withinTask (now : Int) (ai : Int) : ℚ :=
  let elapsed : Int := now - prevDeadline ai
  let total : Int := currentDeadline ai - prevDeadline ai
  min (max ((elapsed : ℚ) / (total : ℚ)) 0) 1

/-- Which of the three branches of the `progressFraction` computation runs. -/
inductive ProgressBranch where
  | allCompleted
  | activeMilestone
  | fallback
  deriving DecidableEq, Repr

/-- The branch selected by
`if (completedCount === milestones.length) ... else if (activeIndex >= 0) ... else ...`. -/
def progressBranch (now : Int) : ProgressBranch :=
  if completedCount now = milestones.length then ProgressBranch.allCompleted
  else if activeIndex now ≥ 0 then ProgressBranch.activeMilestone
  else ProgressBranch.fallback

/-- The value of `progressFraction`. -/
def progressFraction (now : Int) : ℚ :=
  if completedCount now = milestones.length then 1
  else if activeIndex now ≥ 0 then
    (((activeIndex now : Int) : ℚ) + withinTask now (activeIndex now)) / (milestones.length : ℚ)
  else 0


/-- The value written to `chain-completed`: `completedCount`. -/
def chainCompleted (now : Int) : Int := (completedCount now : Int)

/-- The value written to `chain-active`: `activeIndex >= 0 ? 1 : 0`. -/
def chainActive (now : Int) : Int := if activeIndex now ≥ 0 then 1 else 0

/-- The value written to `chain-upcoming`:
`milestones.length - completedCount - (activeIndex >= 0 ? 1 : 0)`. -/
def chainUpcoming (now : Int) : Int :=
  (milestones.length : Int) - (completedCount now : Int) - (if activeIndex now ≥ 0 then 1 else 0)

/-- The fraction reached inside the segment `(lo, hi]` of milestone number
`k`: `(k + clamp((now - lo) / (hi - lo), 0, 1)) / 5`. -/
def segFraction (k : Nat) (lo hi now : Int) : ℚ :=
  ((k : ℚ) + min (max (((now - lo : Int) : ℚ) / ((hi - lo : Int) : ℚ)) 0) 1) / 5

/-- The parts of the page that `initTimelineProgress` looks up. -/
structure TimelinePage where
  /-- Whether `[data-task="t"] .timeline-node` exists, by task id `t`. -/
  hasNode : Nat → Bool
  /-- Whether `[data-task="t"] .phase-card` exists, by task id `t`. -/
  hasCard : Nat → Bool
  /-- Whether `.timeline-container` exists. -/
  hasTimelineContainer : Bool
  /-- Whether `.timeline-line-progress` exists. -/
  hasProgressLine : Bool
  /-- The number of `.timeline-item` elements. -/
  timelineItems : Nat
  /-- Whether `#chain-completed` exists. -/
  hasChainCompleted : Bool
  /-- Whether `#chain-active` exists. -/
  hasChainActive : Bool
  /-- Whether `#chain-upcoming` exists. -/
  hasChainUpcoming : Bool

/-- What one run of `initTimelineProgress` does to the page. -/
structure TimelineRun where
  /-- The status class stamped on each milestone, `none` for a milestone the
  loop skips. -/
  marks : List (Option Status)
  /-- The fraction handed to the delayed height update, `none` when no update
  is scheduled. -/
  scheduledFraction : Option ℚ
  /-- The text written to `#chain-completed`, `none` when nothing is written. -/
  completedText : Option Int
  /-- The text written to `#chain-active`, `none` when nothing is written. -/
  activeText : Option Int
  /-- The text written to `#chain-upcoming`, `none` when nothing is written. -/
  upcomingText : Option Int

/-- The status loop on a page: a milestone whose node or card is missing is
skipped (`if (!node || !card) return;`), the others are classified. -/
def timelineMarks (page : TimelinePage) (now : Int) : List (Option Status) :=
  (withIndexFrom milestones 0).map (fun p =>
    if !page.hasNode p.1.id || !page.hasCard p.1.id then none
    else some (milestoneStatus now p.1 p.2))

/-- The function `initTimelineProgress`, run at time `now` on `page`. -/
def initTimelineProgress (page : TimelinePage) (now : Int) : TimelineRun :=
  let marks := timelineMarks page now
  if !page.hasTimelineContainer || !page.hasProgressLine then
    { marks := marks, scheduledFraction := none,
      completedText := none, activeText := none, upcomingText := none }
  else if page.timelineItems = 0 then
    { marks := marks, scheduledFraction := none,
      completedText := none, activeText := none, upcomingText := none }
  else
    { marks := marks, scheduledFraction := some (progressFraction now),
      completedText := if page.hasChainCompleted then some (chainCompleted now) else none,
      activeText := if page.hasChainActive then some (chainActive now) else none,
      upcomingText := if page.hasChainUpcoming then some (chainUpcoming now) else none }

/-- A page with every element `initTimelineProgress` looks up (five timeline
items, the three counters, the progress line) except `.timeline-container`. -/
def pageWithoutContainer : TimelinePage :=
  { hasNode := fun _ => true, hasCard := fun _ => true,
    hasTimelineContainer := false, hasProgressLine := true, timelineItems := 5,
    hasChainCompleted := true, hasChainActive := true, hasChainUpcoming := true }

/-- A page with the three counters and nothing else of the timeline. -/
def pageWithCountersOnly : TimelinePage :=
  { hasNode := fun _ => false, hasCard := fun _ => false,
    hasTimelineContainer := false, hasProgressLine := false, timelineItems := 0,
    hasChainCompleted := true, hasChainActive := true, hasChainUpcoming := true }

/-- A page with the timeline container, the progress line and the three
counters, and no `.timeline-item` element. -/
def pageWithoutItems : TimelinePage :=
  { hasNode := fun _ => false, hasCard := fun _ => false,
    hasTimelineContainer := true, hasProgressLine := true, timelineItems := 0,
    hasChainCompleted := true, hasChainActive := true, hasChainUpcoming := true }

/-! ## DNA helix (`drawHelix`) -/

/-- The value `depth = (Math.sin(...) + 1) / 2`, as a function of the sine value. -/
def helixDepth (sine : ℚ) : ℚ := (sine + 1) / 2

/-- Opacity of the base-pair connector: `0.06 + depth * 0.1`. -/
def connectorOpacity (depth : ℚ) : ℚ := 0.06 + depth * 0.1

/-- Radius of the strand-1 dot: `r1 = 2 + depth * 2`. -/
def dotRadius1 (depth : ℚ) : ℚ := 2 + depth * 2

/-- Fill opacity of the strand-1 dot: `0.3 + depth * 0.5`. -/
def dotOpacity1 (depth : ℚ) : ℚ := 0.3 + depth * 0.5

/-- Radius of the strand-2 dot: `r2 = 2 + (1 - depth) * 2`. -/
def dotRadius2 (depth : ℚ) : ℚ := 2 + (1 - depth) * 2

/-- Fill opacity of the strand-2 dot: `0.3 + (1 - depth) * 0.5`. -/
def dotOpacity2 (depth : ℚ) : ℚ := 0.3 + (1 - depth) * 0.5

/-- What one iteration of the loop of `drawHelix` paints. -/
structure HelixSegment where
  x1 : ℚ
  x2 : ℚ
  y : ℚ
  lineOpacity : ℚ
  r1 : ℚ
  opacity1 : ℚ
  r2 : ℚ
  opacity2 : ℚ

/-- One iteration of the loop of `drawHelix` for a helix anchored at `x` with
the given `amplitude`, at height `y`, where `sine` is the value of
`Math.sin(y * frequency + time * speed + phase)`. -/
def drawSegment (x amplitude y sine : ℚ) : HelixSegment :=
  let offset := sine * amplitude
  let depth := helixDepth sine
  { x1 := x + offset, x2 := x - offset, y := y,
    lineOpacity := connectorOpacity depth,
    r1 := dotRadius1 depth, opacity1 := dotOpacity1 depth,
    r2 := dotRadius2 depth, opacity2 := dotOpacity2 depth }

/-! ## Class lists -/

/-- The method `classList.contains(token)`. -/
def classContains (cl : List String) (token : String) : Bool := cl.contains token

/-- The method `classList.add(token)`: appends the token unless it is there. -/
def classAdd (cl : List String) (token : String) : List String :=
  if cl.contains token then cl else cl ++ [token]

/-- The method `classList.remove(token)`. -/
def classRemove (cl : List String) (token : String) : List String :=
  cl.filter (fun t => t != token)

/-- The method `classList.toggle(token)`: removes the token when present, adds it
otherwise. -/
def classToggle (cl : List String) (token : String) : List String :=
  if cl.contains token then classRemove cl token else cl ++ [token]

/-! ## Mobile menu (`initMobileMenu`, `closeMobileMenu`) -/

/-- The parts of the page the mobile menu touches: the class lists of
`.hamburger` and `.mobile-menu` (`none` when the element is absent) and
`document.body.style.overflow`. -/
structure MenuPage where
  hamburger : Option (List String)
  mobileMenu : Option (List String)
  bodyOverflow : String
  deriving DecidableEq, Repr

/-- A click on the hamburger after `initMobileMenu`: the listener exists only
when both elements do; it toggles `open` on both and sets the body overflow
from the panel. -/
def hamburgerClick (p : MenuPage) : MenuPage :=
  match p.hamburger, p.mobileMenu with
  | some h, some m =>
    let m1 := classToggle m "open"
    { hamburger := some (classToggle h "open"),
      mobileMenu := some m1,
      bodyOverflow := if classContains m1 "open" then "hidden" else "" }
  | _, _ => p

/-- The function `closeMobileMenu`. -/
def closeMobileMenu (p : MenuPage) : MenuPage :=
  match p.hamburger, p.mobileMenu with
  | some h, some m =>
    { hamburger := some (classRemove h "open"),
      mobileMenu := some (classRemove m "open"),
      bodyOverflow := "" }
  | _, _ => p

/-- The two things that happen to the menu: a click on the toggle, a call of
`closeMobileMenu`. -/
inductive MenuEvent where
  | toggleClick
  | close
  deriving DecidableEq, Repr

/-- The effect of one menu event. -/
def menuStep (p : MenuPage) : MenuEvent → MenuPage
  | MenuEvent.toggleClick => hamburgerClick p
  | MenuEvent.close => closeMobileMenu p

/-- The page after a sequence of menu events. -/
def menuRun (p : MenuPage) (events : List MenuEvent) : MenuPage :=
  events.foldl menuStep p

/-! ## Navbar (`initNavbar`, the scroll listener) -/

/-- A `section[id]` element: its id and its `offsetTop`. -/
structure PageSection where
  id : String
  offsetTop : Int
  deriving DecidableEq, Repr

/-- A `.nav-link[href^="#"]` element: its `href` attribute and class list. -/
structure NavLink where
  href : String
  classList : List String
  deriving DecidableEq, Repr

/-- The test `window.scrollY >= section.offsetTop - 120`. -/
def sectionReached (scrollY : ℚ) (s : PageSection) : Bool :=
  decide (scrollY ≥ ((s.offsetTop - 120 : Int) : ℚ))

/-- The value of `current` after the `sections.forEach` of the scroll
listener. -/
def currentSection (sections : List PageSection) (scrollY : ℚ) : String :=
  sections.foldl (fun current s => if sectionReached scrollY s then s.id else current) ""

/-- The body of `navLinks.forEach` in the scroll listener: remove `active`,
then add it when the href is `'#' + current`. -/
def highlightLink (current : String) (link : NavLink) : NavLink :=
  let cleared := classRemove link.classList "active"
  if link.href = "#" ++ current then { link with classList := classAdd cleared "active" }
  else { link with classList := cleared }

/-- The parts of the page the scroll listener touches. -/
structure NavPage where
  /-- Class list of `.navbar`, `none` when the element is absent. -/
  navbar : Option (List String)
  navLinks : List NavLink
  sections : List PageSection
  scrollY : ℚ

/-- The scroll listener of `initNavbar`; `none` when it throws (reading
`classList` of a missing `.navbar`). -/
def onScroll (p : NavPage) : Option NavPage :=
  match p.navbar with
  | none => none
  | some nb =>
    let nb1 := if p.scrollY > 50 then classAdd nb "scrolled" else classRemove nb "scrolled"
    let current := currentSection p.sections p.scrollY
    some { p with navbar := some nb1, navLinks := p.navLinks.map (highlightLink current) }

/-- The menu is in a consistent state: both elements exist, they agree on
`open`, and the body overflow is `hidden` exactly when the panel is open. -/
def MenuConsistent (p : MenuPage) : Prop :=
  ∃ h m, p.hamburger = some h ∧ p.mobileMenu = some m ∧
    ("open" ∈ h ↔ "open" ∈ m) ∧ (p.bodyOverflow = "hidden" ↔ "open" ∈ m)

/-! ## Constants of the timeline -/

theorem utcDate_start : utcDate 2026 1 1 = 1767225600000 := by decide
theorem utcDate_d0 : utcDate 2026 2 20 = 1771545600000 := by decide
theorem utcDate_d1 : utcDate 2026 3 25 = 1774396800000 := by decide
theorem utcDate_d2 : utcDate 2026 5 5 = 1777939200000 := by decide
theorem utcDate_d3 : utcDate 2026 6 29 = 1782691200000 := by decide
theorem utcDate_d4 : utcDate 2026 9 30 = 1790726400000 := by decide

theorem milestones_eq : milestones =
    [⟨1771545600000, 1⟩, ⟨1774396800000, 2⟩, ⟨1777939200000, 3⟩,
     ⟨1782691200000, 4⟩, ⟨1790726400000, 5⟩] := by
  simp [milestones, utcDate_d0, utcDate_d1, utcDate_d2, utcDate_d3, utcDate_d4]

theorem projectStart_eq : projectStart = 1767225600000 := utcDate_start

theorem milestoneAt_zero : milestoneAt 0 = ⟨1771545600000, 1⟩ := by
  simp [milestoneAt, milestones_eq]
theorem milestoneAt_one : milestoneAt 1 = ⟨1774396800000, 2⟩ := by
  simp [milestoneAt, milestones_eq]
theorem milestoneAt_two : milestoneAt 2 = ⟨1777939200000, 3⟩ := by
  simp [milestoneAt, milestones_eq]
theorem milestoneAt_three : milestoneAt 3 = ⟨1782691200000, 4⟩ := by
  simp [milestoneAt, milestones_eq]
theorem milestoneAt_four : milestoneAt 4 = ⟨1790726400000, 5⟩ := by
  simp [milestoneAt, milestones_eq]

theorem statusLoop_eq (now : Int) : statusLoop now =
    [ if now > 1771545600000 then Status.completed else Status.active,
      if now > 1774396800000 then Status.completed
        else if now > 1771545600000 then Status.active else Status.upcoming,
      if now > 1777939200000 then Status.completed
        else if now > 1774396800000 then Status.active else Status.upcoming,
      if now > 1782691200000 then Status.completed
        else if now > 1777939200000 then Status.active else Status.upcoming,
      if now > 1790726400000 then Status.completed
        else if now > 1782691200000 then Status.active else Status.upcoming ] := by
  rw [statusLoop, milestones_eq]
  simp [withIndexFrom, milestoneStatus, milestoneAt_zero,
    milestoneAt_one, milestoneAt_two, milestoneAt_three]

theorem completedCount_eq (now : Int) : completedCount now =
    (if now > 1771545600000 then 1 else 0) + (if now > 1774396800000 then 1 else 0)
    + (if now > 1777939200000 then 1 else 0) + (if now > 1782691200000 then 1 else 0)
    + (if now > 1790726400000 then 1 else 0) := by
  rw [completedCount, milestones_eq]
  simp only [List.filter_cons, List.filter_nil, gt_iff_lt]
  by_cases h0 : (1771545600000 : Int) < now <;> by_cases h1 : (1774396800000 : Int) < now <;>
  by_cases h2 : (1777939200000 : Int) < now <;> by_cases h3 : (1782691200000 : Int) < now <;>
  by_cases h4 : (1790726400000 : Int) < now <;> simp [h0, h1, h2, h3, h4]

theorem activeIndex_eq (now : Int) : activeIndex now =
    if now ≤ 1771545600000 then 0
    else if now ≤ 1774396800000 then 1
    else if now ≤ 1777939200000 then 2
    else if now ≤ 1782691200000 then 3
    else if now ≤ 1790726400000 then 4
    else -1 := by
  rw [activeIndex, milestones_eq]
  simp [findIndexFrom, isActiveAt, milestoneAt_zero,
    milestoneAt_one, milestoneAt_two, milestoneAt_three]
  split_ifs <;> first | rfl | omega

/-! ## Segment fractions -/

theorem segFraction_lower (k : Nat) (lo hi now : Int) :
    (k : ℚ) / 5 ≤ segFraction k lo hi now := by
  unfold segFraction
  have h : (0 : ℚ) ≤ min (max (((now - lo : Int) : ℚ) / ((hi - lo : Int) : ℚ)) 0) 1 :=
    le_min (le_max_right _ _) zero_le_one
  linarith

theorem segFraction_upper (k : Nat) (lo hi now : Int) :
    segFraction k lo hi now ≤ ((k : ℚ) + 1) / 5 := by
  unfold segFraction
  have h : min (max (((now - lo : Int) : ℚ) / ((hi - lo : Int) : ℚ)) 0) 1 ≤ (1 : ℚ) :=
    min_le_right _ _
  linarith

theorem segFraction_mono (k : Nat) (lo hi : Int) (hlt : lo < hi) {t1 t2 : Int}
    (h : t1 ≤ t2) : segFraction k lo hi t1 ≤ segFraction k lo hi t2 := by
  unfold segFraction
  have hpos : (0 : ℚ) < ((hi - lo : Int) : ℚ) := by exact_mod_cast (by omega : 0 < hi - lo)
  have hnum : ((t1 - lo : Int) : ℚ) ≤ ((t2 - lo : Int) : ℚ) := by
    exact_mod_cast (by omega : t1 - lo ≤ t2 - lo)
  have hdiv : ((t1 - lo : Int) : ℚ) / ((hi - lo : Int) : ℚ)
      ≤ ((t2 - lo : Int) : ℚ) / ((hi - lo : Int) : ℚ) :=
    div_le_div_of_nonneg_right hnum hpos.le
  have hclamp := min_le_min_right (1 : ℚ) (max_le_max_right (0 : ℚ) hdiv)
  linarith

theorem segFraction_at_end (k : Nat) (lo hi : Int) (hlt : lo < hi) :
    segFraction k lo hi hi = ((k : ℚ) + 1) / 5 := by
  unfold segFraction
  have hpos : (0 : ℚ) < ((hi - lo : Int) : ℚ) := by exact_mod_cast (by omega : 0 < hi - lo)
  rw [div_self hpos.ne']
  simp

theorem segFraction_before (k : Nat) (lo hi now : Int) (hlt : lo < hi) (h : now ≤ lo) :
    segFraction k lo hi now = (k : ℚ) / 5 := by
  unfold segFraction
  have hpos : (0 : ℚ) < ((hi - lo : Int) : ℚ) := by exact_mod_cast (by omega : 0 < hi - lo)
  have hnum : ((now - lo : Int) : ℚ) ≤ 0 := by exact_mod_cast (by omega : now - lo ≤ 0)
  have hdiv : ((now - lo : Int) : ℚ) / ((hi - lo : Int) : ℚ) ≤ 0 :=
    div_nonpos_of_nonpos_of_nonneg hnum hpos.le
  rw [max_eq_right hdiv]
  simp

theorem segFraction_inside (k : Nat) (lo hi now : Int) (h1 : lo ≤ now) (h2 : now ≤ hi)
    (hlt : lo < hi) :
    segFraction k lo hi now = ((k : ℚ) + ((now : ℚ) - lo) / ((hi : ℚ) - lo)) / 5 := by
  unfold segFraction
  have hpos : (0 : ℚ) < ((hi - lo : Int) : ℚ) := by exact_mod_cast (by omega : 0 < hi - lo)
  have hnum : (0 : ℚ) ≤ ((now - lo : Int) : ℚ) := by exact_mod_cast (by omega : 0 ≤ now - lo)
  have hle : ((now - lo : Int) : ℚ) ≤ ((hi - lo : Int) : ℚ) := by
    exact_mod_cast (by omega : now - lo ≤ hi - lo)
  have hdiv0 : 0 ≤ ((now - lo : Int) : ℚ) / ((hi - lo : Int) : ℚ) := div_nonneg hnum hpos.le
  have hdiv1 : ((now - lo : Int) : ℚ) / ((hi - lo : Int) : ℚ) ≤ 1 :=
    (div_le_one hpos).mpr hle
  rw [max_eq_left hdiv0, min_eq_left hdiv1]
  push_cast
  rfl

/-- Closed form of `withinTask` and `progressFraction` on each of the six
intervals cut out by the five deadlines. -/
theorem progressFraction_cases (now : Int) :
    (now ≤ 1771545600000 ∧
        progressFraction now = segFraction 0 1767225600000 1771545600000 now) ∨
    (1771545600000 < now ∧ now ≤ 1774396800000 ∧
        progressFraction now = segFraction 1 1771545600000 1774396800000 now) ∨
    (1774396800000 < now ∧ now ≤ 1777939200000 ∧
        progressFraction now = segFraction 2 1774396800000 1777939200000 now) ∨
    (1777939200000 < now ∧ now ≤ 1782691200000 ∧
        progressFraction now = segFraction 3 1777939200000 1782691200000 now) ∨
    (1782691200000 < now ∧ now ≤ 1790726400000 ∧
        progressFraction now = segFraction 4 1782691200000 1790726400000 now) ∨
    (1790726400000 < now ∧ progressFraction now = 1) := by
  have hlen : milestones.length = 5 := by rw [milestones_eq]; rfl
  unfold progressFraction
  rw [completedCount_eq, activeIndex_eq, hlen]
  by_cases h0 : now ≤ 1771545600000
  · left
    refine ⟨h0, ?_⟩
    have c0 : ¬ now > 1771545600000 := by omega
    have c1 : ¬ now > 1774396800000 := by omega
    have c2 : ¬ now > 1777939200000 := by omega
    have c3 : ¬ now > 1782691200000 := by omega
    have c4 : ¬ now > 1790726400000 := by omega
    simp [c0, c1, c2, c3, c4, h0, withinTask, prevDeadline, currentDeadline, segFraction,
      milestoneAt_zero, projectStart_eq]
  by_cases h1 : now ≤ 1774396800000
  · right; left
    refine ⟨by omega, h1, ?_⟩
    have c0 : now > 1771545600000 := by omega
    have c2 : ¬ now > 1777939200000 := by omega
    have c3 : ¬ now > 1782691200000 := by omega
    have c4 : ¬ now > 1790726400000 := by omega
    have c1 : ¬ now > 1774396800000 := by omega
    simp [c0, c1, c2, c3, c4, h0, h1, withinTask, prevDeadline, currentDeadline, segFraction,
      milestoneAt_zero, milestoneAt_one]
  by_cases h2 : now ≤ 1777939200000
  · right; right; left
    refine ⟨by omega, h2, ?_⟩
    have c0 : now > 1771545600000 := by omega
    have c1 : now > 1774396800000 := by omega
    have c2 : ¬ now > 1777939200000 := by omega
    have c3 : ¬ now > 1782691200000 := by omega
    have c4 : ¬ now > 1790726400000 := by omega
    simp [c0, c1, c2, c3, c4, h0, h1, h2, withinTask, prevDeadline, currentDeadline,
      segFraction, milestoneAt_one, milestoneAt_two]
  by_cases h3 : now ≤ 1782691200000
  · right; right; right; left
    refine ⟨by omega, h3, ?_⟩
    have c0 : now > 1771545600000 := by omega
    have c1 : now > 1774396800000 := by omega
    have c2 : now > 1777939200000 := by omega
    have c3 : ¬ now > 1782691200000 := by omega
    have c4 : ¬ now > 1790726400000 := by omega
    simp [c0, c1, c2, c3, c4, h0, h1, h2, h3, withinTask, prevDeadline, currentDeadline,
      segFraction, milestoneAt_two, milestoneAt_three]
  by_cases h4 : now ≤ 1790726400000
  · right; right; right; right; left
    refine ⟨by omega, h4, ?_⟩
    have c0 : now > 1771545600000 := by omega
    have c1 : now > 1774396800000 := by omega
    have c2 : now > 1777939200000 := by omega
    have c3 : now > 1782691200000 := by omega
    have c4 : ¬ now > 1790726400000 := by omega
    simp [c0, c1, c2, c3, c4, h0, h1, h2, h3, h4, withinTask, prevDeadline, currentDeadline,
      segFraction, milestoneAt_three, milestoneAt_four]
  · right; right; right; right; right
    refine ⟨by omega, ?_⟩
    have c0 : now > 1771545600000 := by omega
    have c1 : now > 1774396800000 := by omega
    have c2 : now > 1777939200000 := by omega
    have c3 : now > 1782691200000 := by omega
    have c4 : now > 1790726400000 := by omega
    simp [c0, c1, c2, c3, c4]

/-! ## The six intervals; status classification -/

/-- The classification, the completed count and the active index on each of
the six intervals cut out by the five deadlines. -/
theorem timeline_cases (now : Int) :
    (now ≤ 1771545600000 ∧ completedCount now = 0 ∧ activeIndex now = 0 ∧
      statusLoop now = [Status.active, Status.upcoming, Status.upcoming, Status.upcoming,
        Status.upcoming]) ∨
    (1771545600000 < now ∧ now ≤ 1774396800000 ∧ completedCount now = 1 ∧ activeIndex now = 1 ∧
      statusLoop now = [Status.completed, Status.active, Status.upcoming, Status.upcoming,
        Status.upcoming]) ∨
    (1774396800000 < now ∧ now ≤ 1777939200000 ∧ completedCount now = 2 ∧ activeIndex now = 2 ∧
      statusLoop now = [Status.completed, Status.completed, Status.active, Status.upcoming,
        Status.upcoming]) ∨
    (1777939200000 < now ∧ now ≤ 1782691200000 ∧ completedCount now = 3 ∧ activeIndex now = 3 ∧
      statusLoop now = [Status.completed, Status.completed, Status.completed, Status.active,
        Status.upcoming]) ∨
    (1782691200000 < now ∧ now ≤ 1790726400000 ∧ completedCount now = 4 ∧ activeIndex now = 4 ∧
      statusLoop now = [Status.completed, Status.completed, Status.completed, Status.completed,
        Status.active]) ∨
    (1790726400000 < now ∧ completedCount now = 5 ∧ activeIndex now = -1 ∧
      statusLoop now = [Status.completed, Status.completed, Status.completed, Status.completed,
        Status.completed]) := by
  rw [completedCount_eq, activeIndex_eq, statusLoop_eq]
  by_cases h0 : now ≤ 1771545600000
  · left
    have c0 : ¬ now > 1771545600000 := by omega
    have c1 : ¬ now > 1774396800000 := by omega
    have c2 : ¬ now > 1777939200000 := by omega
    have c3 : ¬ now > 1782691200000 := by omega
    have c4 : ¬ now > 1790726400000 := by omega
    simp [c0, c1, c2, c3, c4, h0]
  by_cases h1 : now ≤ 1774396800000
  · right; left
    have c0 : now > 1771545600000 := by omega
    have c1 : ¬ now > 1774396800000 := by omega
    have c2 : ¬ now > 1777939200000 := by omega
    have c3 : ¬ now > 1782691200000 := by omega
    have c4 : ¬ now > 1790726400000 := by omega
    simp [c0, c1, c2, c3, c4, h0, h1]
  by_cases h2 : now ≤ 1777939200000
  · right; right; left
    have c0 : now > 1771545600000 := by omega
    have c1 : now > 1774396800000 := by omega
    have c2 : ¬ now > 1777939200000 := by omega
    have c3 : ¬ now > 1782691200000 := by omega
    have c4 : ¬ now > 1790726400000 := by omega
    simp [c0, c1, c2, c3, c4, h0, h1, h2]
  by_cases h3 : now ≤ 1782691200000
  · right; right; right; left
    have c0 : now > 1771545600000 := by omega
    have c1 : now > 1774396800000 := by omega
    have c2 : now > 1777939200000 := by omega
    have c3 : ¬ now > 1782691200000 := by omega
    have c4 : ¬ now > 1790726400000 := by omega
    simp [c0, c1, c2, c3, c4, h0, h1, h2, h3]
  by_cases h4 : now ≤ 1790726400000
  · right; right; right; right; left
    have c0 : now > 1771545600000 := by omega
    have c1 : now > 1774396800000 := by omega
    have c2 : now > 1777939200000 := by omega
    have c3 : now > 1782691200000 := by omega
    have c4 : ¬ now > 1790726400000 := by omega
    simp [c0, c1, c2, c3, c4, h0, h1, h2, h3, h4]
  · right; right; right; right; right
    have c0 : now > 1771545600000 := by omega
    have c1 : now > 1774396800000 := by omega
    have c2 : now > 1777939200000 := by omega
    have c3 : now > 1782691200000 := by omega
    have c4 : now > 1790726400000 := by omega
    simp [c0, c1, c2, c3, c4, h0, h1, h2, h3, h4]

/-- C1. For every time `now`, the status loop classifies exactly one of the
five milestones as active when not all of them are classified completed, and
none when all are; every milestone before the active one is completed and
every milestone after it is upcoming; and for every `now` before 2026-02-20
milestone 1 is active and milestones 2-5 are upcoming. -/
theorem statusLoop_exactly_one_active (now : Int) :
    (statusLoop now).length = 5 ∧
    ((∀ s ∈ statusLoop now, s = Status.completed) →
      (statusLoop now).count Status.active = 0) ∧
    (¬ (∀ s ∈ statusLoop now, s = Status.completed) →
      (statusLoop now).count Status.active = 1) ∧
    (∀ i j : Fin 5, (statusLoop now)[i.val]? = some Status.active → j < i →
      (statusLoop now)[j.val]? = some Status.completed) ∧
    (∀ i j : Fin 5, (statusLoop now)[i.val]? = some Status.active → i < j →
      (statusLoop now)[j.val]? = some Status.upcoming) ∧
    (now < utcDate 2026 2 20 →
      statusLoop now = [Status.active, Status.upcoming, Status.upcoming, Status.upcoming,
        Status.upcoming]) := by
  rw [utcDate_d0]
  rcases timeline_cases now with h | h | h | h | h | h
  · obtain ⟨_, _, _, hs⟩ := h
    rw [hs]
    exact ⟨by decide, by decide, by decide, by decide, by decide, fun _ => rfl⟩
  · obtain ⟨h0, _, _, _, hs⟩ := h
    rw [hs]
    refine ⟨by decide, by decide, by decide, by decide, by decide, fun hlt => ?_⟩
    omega
  · obtain ⟨h0, _, _, _, hs⟩ := h
    rw [hs]
    refine ⟨by decide, by decide, by decide, by decide, by decide, fun hlt => ?_⟩
    omega
  · obtain ⟨h0, _, _, _, hs⟩ := h
    rw [hs]
    refine ⟨by decide, by decide, by decide, by decide, by decide, fun hlt => ?_⟩
    omega
  · obtain ⟨h0, _, _, _, hs⟩ := h
    rw [hs]
    refine ⟨by decide, by decide, by decide, by decide, by decide, fun hlt => ?_⟩
    omega
  · obtain ⟨h0, _, _, hs⟩ := h
    rw [hs]
    refine ⟨by decide, by decide, by decide, by decide, by decide, fun hlt => ?_⟩
    omega

/-- Witness of C1 at `now` = 2026-01-15 (before 2026-02-20): milestone 1 is
active, milestones 2-5 are upcoming. -/
theorem statusLoop_exactly_one_active_witness :
    utcDate 2026 1 15 < utcDate 2026 2 20 ∧
    statusLoop (utcDate 2026 1 15) = [Status.active, Status.upcoming, Status.upcoming,
      Status.upcoming, Status.upcoming] :=
  ⟨by decide, (statusLoop_exactly_one_active (utcDate 2026 1 15)).2.2.2.2.2 (by decide)⟩

/-! ## Counters and the fallback branch; range of the fraction -/

/-- C2 (counterexample). At `now` = 2026-04-01 the claimed witness fails: the
status loop does not classify milestone 2 as active (its deadline 2026-03-25
has passed), `completedCount` is not 1, `activeIndex` is not 1 and the
counters are not 1, 1, 3. -/
theorem counters_april_first_not_as_claimed :
    ¬ (statusLoop (utcDate 2026 4 1) = [Status.completed, Status.active, Status.upcoming,
        Status.upcoming, Status.upcoming] ∨
      completedCount (utcDate 2026 4 1) = 1 ∨ activeIndex (utcDate 2026 4 1) = 1 ∨
      chainCompleted (utcDate 2026 4 1) = 1 ∨ chainUpcoming (utcDate 2026 4 1) = 3) := by
  have hd : utcDate 2026 4 1 = 1775001600000 := by decide
  have hlen : milestones.length = 5 := by rw [milestones_eq]; rfl
  rcases timeline_cases (utcDate 2026 4 1) with h | h | h | h | h | h <;>
    first
    | (obtain ⟨h0, h1, hc, ha, hs⟩ := h
       rw [hd] at h0 h1
       first
       | omega
       | (rw [hs, hc, ha, chainCompleted, chainUpcoming, hc, ha, hlen]; decide))
    | (obtain ⟨h0, hc, ha, hs⟩ := h
       rw [hd] at h0
       omega)

/-- C2 (amended). For every time `now`, the values written to
`chain-completed`, `chain-active` and `chain-upcoming` are the numbers of
milestones the status loop classifies as completed, active (0 or 1) and
upcoming, and they sum to 5; `activeIndex` is the index of the milestone the
loop marks active, or -1 when it marks none. At `now` = 2026-04-01
milestones 1 and 2 are completed, milestone 3 is active and milestones 4-5
are upcoming, `completedCount` = 2, `activeIndex` = 2, counters 2, 1, 2. -/
theorem counters_match_statusLoop (now : Int) :
    chainCompleted now = ((statusLoop now).count Status.completed : Int) ∧
    chainActive now = ((statusLoop now).count Status.active : Int) ∧
    chainUpcoming now = ((statusLoop now).count Status.upcoming : Int) ∧
    (chainActive now = 0 ∨ chainActive now = 1) ∧
    chainCompleted now + chainActive now + chainUpcoming now = 5 ∧
    ((activeIndex now = -1 ∧ (statusLoop now).count Status.active = 0) ∨
      (∃ i : Nat, activeIndex now = (i : Int) ∧
        (statusLoop now)[i]? = some Status.active)) ∧
    (statusLoop (utcDate 2026 4 1) = [Status.completed, Status.completed, Status.active,
        Status.upcoming, Status.upcoming] ∧
      completedCount (utcDate 2026 4 1) = 2 ∧ activeIndex (utcDate 2026 4 1) = 2 ∧
      chainCompleted (utcDate 2026 4 1) = 2 ∧ chainActive (utcDate 2026 4 1) = 1 ∧
      chainUpcoming (utcDate 2026 4 1) = 2) := by
  have hlen : milestones.length = 5 := by rw [milestones_eq]; rfl
  have general : ∀ t : Int,
      chainCompleted t = ((statusLoop t).count Status.completed : Int) ∧
      chainActive t = ((statusLoop t).count Status.active : Int) ∧
      chainUpcoming t = ((statusLoop t).count Status.upcoming : Int) ∧
      (chainActive t = 0 ∨ chainActive t = 1) ∧
      chainCompleted t + chainActive t + chainUpcoming t = 5 ∧
      ((activeIndex t = -1 ∧ (statusLoop t).count Status.active = 0) ∨
        (∃ i : Nat, activeIndex t = (i : Int) ∧
          (statusLoop t)[i]? = some Status.active)) := by
    intro t
    unfold chainCompleted chainActive chainUpcoming
    rw [hlen]
    rcases timeline_cases t with h | h | h | h | h | h
    · obtain ⟨_, hc, ha, hs⟩ := h
      rw [hc, ha, hs]
      exact ⟨by decide, by decide, by decide, by decide, by decide, Or.inr ⟨0, by decide⟩⟩
    · obtain ⟨_, _, hc, ha, hs⟩ := h
      rw [hc, ha, hs]
      exact ⟨by decide, by decide, by decide, by decide, by decide, Or.inr ⟨1, by decide⟩⟩
    · obtain ⟨_, _, hc, ha, hs⟩ := h
      rw [hc, ha, hs]
      exact ⟨by decide, by decide, by decide, by decide, by decide, Or.inr ⟨2, by decide⟩⟩
    · obtain ⟨_, _, hc, ha, hs⟩ := h
      rw [hc, ha, hs]
      exact ⟨by decide, by decide, by decide, by decide, by decide, Or.inr ⟨3, by decide⟩⟩
    · obtain ⟨_, _, hc, ha, hs⟩ := h
      rw [hc, ha, hs]
      exact ⟨by decide, by decide, by decide, by decide, by decide, Or.inr ⟨4, by decide⟩⟩
    · obtain ⟨_, hc, ha, hs⟩ := h
      rw [hc, ha, hs]
      exact ⟨by decide, by decide, by decide, by decide, by decide, Or.inl (by decide)⟩
  obtain ⟨g1, g2, g3, g4, g5, g6⟩ := general now
  refine ⟨g1, g2, g3, g4, g5, g6, ?_⟩
  have hd : utcDate 2026 4 1 = 1775001600000 := by decide
  rcases timeline_cases (utcDate 2026 4 1) with h | h | h | h | h | h <;>
    first
    | (obtain ⟨h0, h1, hc, ha, hs⟩ := h
       rw [hd] at h0 h1
       first
       | omega
       | (rw [hs, hc, ha, chainCompleted, chainActive, chainUpcoming, hc, ha, hlen]; decide))
    | (obtain ⟨h0, hc, ha, hs⟩ := h
       rw [hd] at h0
       omega)

/-- C3. For every time `now` the final `else` of the progress computation is
never taken: whenever `completedCount` differs from the number of milestones,
`activeIndex` is non-negative; and the first milestone is always classified
active or completed. -/
theorem fallback_branch_unreachable (now : Int) :
    progressBranch now ≠ ProgressBranch.fallback ∧
    (completedCount now ≠ milestones.length → activeIndex now ≥ 0) ∧
    ((statusLoop now)[0]? = some Status.active ∨
      (statusLoop now)[0]? = some Status.completed) := by
  have hlen : milestones.length = 5 := by rw [milestones_eq]; rfl
  unfold progressBranch
  rw [hlen]
  rcases timeline_cases now with h | h | h | h | h | h
  · obtain ⟨_, hc, ha, hs⟩ := h
    rw [hc, ha, hs]; decide
  · obtain ⟨_, _, hc, ha, hs⟩ := h
    rw [hc, ha, hs]; decide
  · obtain ⟨_, _, hc, ha, hs⟩ := h
    rw [hc, ha, hs]; decide
  · obtain ⟨_, _, hc, ha, hs⟩ := h
    rw [hc, ha, hs]; decide
  · obtain ⟨_, _, hc, ha, hs⟩ := h
    rw [hc, ha, hs]; decide
  · obtain ⟨_, hc, ha, hs⟩ := h
    rw [hc, ha, hs]; decide

/-- Witness of C3 at `now` = 2026-04-01: `completedCount` is 2, not 5, and
`activeIndex` is non-negative. -/
theorem fallback_branch_unreachable_witness :
    completedCount (utcDate 2026 4 1) ≠ milestones.length ∧
    activeIndex (utcDate 2026 4 1) ≥ 0 :=
  ⟨by decide, (fallback_branch_unreachable (utcDate 2026 4 1)).2.1 (by decide)⟩

/-- C4. For every time `now` (before the 2026-01-01 anchor and after the last
deadline included) the progress fraction, computed in exact rationals, lies
in the closed interval [0, 1]. -/
theorem progressFraction_in_unit_interval (now : Int) :
    0 ≤ progressFraction now ∧ progressFraction now ≤ 1 := by
  rcases progressFraction_cases now with h | h | h | h | h | h
  · obtain ⟨_, hp⟩ := h
    have lo := segFraction_lower 0 1767225600000 1771545600000 now
    have hi := segFraction_upper 0 1767225600000 1771545600000 now
    rw [hp]; constructor <;> norm_num at lo hi ⊢ <;> linarith
  · obtain ⟨_, _, hp⟩ := h
    have lo := segFraction_lower 1 1771545600000 1774396800000 now
    have hi := segFraction_upper 1 1771545600000 1774396800000 now
    rw [hp]; constructor <;> norm_num at lo hi ⊢ <;> linarith
  · obtain ⟨_, _, hp⟩ := h
    have lo := segFraction_lower 2 1774396800000 1777939200000 now
    have hi := segFraction_upper 2 1774396800000 1777939200000 now
    rw [hp]; constructor <;> norm_num at lo hi ⊢ <;> linarith
  · obtain ⟨_, _, hp⟩ := h
    have lo := segFraction_lower 3 1777939200000 1782691200000 now
    have hi := segFraction_upper 3 1777939200000 1782691200000 now
    rw [hp]; constructor <;> norm_num at lo hi ⊢ <;> linarith
  · obtain ⟨_, _, hp⟩ := h
    have lo := segFraction_lower 4 1782691200000 1790726400000 now
    have hi := segFraction_upper 4 1782691200000 1790726400000 now
    rw [hp]; constructor <;> norm_num at lo hi ⊢ <;> linarith
  · obtain ⟨_, hp⟩ := h
    rw [hp]; norm_num

/-! ## Midpoints -/

theorem prevDeadline_zero : prevDeadline 0 = 1767225600000 := by
  simp [prevDeadline, projectStart_eq]
theorem prevDeadline_one : prevDeadline 1 = 1771545600000 := by
  simp [prevDeadline, milestoneAt_zero]
theorem prevDeadline_two : prevDeadline 2 = 1774396800000 := by
  simp [prevDeadline, milestoneAt_one]
theorem prevDeadline_three : prevDeadline 3 = 1777939200000 := by
  simp [prevDeadline, milestoneAt_two]
theorem prevDeadline_four : prevDeadline 4 = 1782691200000 := by
  simp [prevDeadline, milestoneAt_three]

theorem currentDeadline_zero : currentDeadline 0 = 1771545600000 := by
  simp [currentDeadline, milestoneAt_zero]
theorem currentDeadline_one : currentDeadline 1 = 1774396800000 := by
  simp [currentDeadline, milestoneAt_one]
theorem currentDeadline_two : currentDeadline 2 = 1777939200000 := by
  simp [currentDeadline, milestoneAt_two]
theorem currentDeadline_three : currentDeadline 3 = 1782691200000 := by
  simp [currentDeadline, milestoneAt_three]
theorem currentDeadline_four : currentDeadline 4 = 1790726400000 := by
  simp [currentDeadline, milestoneAt_four]

/-- Inside the segment `(lo, hi]` at the midpoint the clamped ratio is one
half. -/
theorem withinTask_midpoint (now lo hi : Int) (hlt : lo < hi) (hmid : 2 * now = lo + hi) :
    min (max (((now - lo : Int) : ℚ) / ((hi - lo : Int) : ℚ)) 0) 1 = 1 / 2 := by
  have hpos : (0 : ℚ) < ((hi - lo : Int) : ℚ) := by exact_mod_cast (by omega : 0 < hi - lo)
  have hnum : ((hi - lo : Int) : ℚ) = 2 * ((now - lo : Int) : ℚ) := by
    exact_mod_cast (by omega : hi - lo = 2 * (now - lo))
  have hdiv : ((now - lo : Int) : ℚ) / ((hi - lo : Int) : ℚ) = 1 / 2 := by
    rw [div_eq_iff hpos.ne', hnum]; ring
  rw [hdiv]
  norm_num

/-- C5. For every milestone index `i` (0-based) and `now` exactly halfway
between the previous deadline (the 2026-01-01 anchor when `i = 0`) and the
deadline of milestone `i`, milestone `i` is the active one, `withinTask` is
1/2 and the progress fraction is `(i + 1/2) / 5`. -/
theorem halfway_progress (i : Nat) (hi : i < 5) (now : Int)
    (hmid : 2 * now = prevDeadline (i : Int) + currentDeadline (i : Int)) :
    (statusLoop now)[i]? = some Status.active ∧
    activeIndex now = (i : Int) ∧
    withinTask now (activeIndex now) = 1 / 2 ∧
    progressFraction now = ((i : ℚ) + 1 / 2) / 5 := by
  have hlen : milestones.length = 5 := by rw [milestones_eq]; rfl
  interval_cases i
  · simp only [Nat.cast_zero, prevDeadline_zero, currentDeadline_zero] at hmid
    rcases timeline_cases now with h | h | h | h | h | h <;>
      first
      | (obtain ⟨_, _, _, _, _⟩ := h; omega)
      | (obtain ⟨_, _, _, _⟩ := h; omega)
      | skip
    obtain ⟨_, hc, ha, hs⟩ := h
    have hw : withinTask now 0 = 1 / 2 := by
      unfold withinTask
      rw [prevDeadline_zero, currentDeadline_zero]
      exact withinTask_midpoint now _ _ (by norm_num) hmid
    refine ⟨by rw [hs]; rfl, ha, by rw [ha]; exact hw, ?_⟩
    unfold progressFraction
    rw [hc, ha, hlen, hw]
    norm_num
  · push_cast at hmid ⊢
    rw [prevDeadline_one, currentDeadline_one] at hmid
    rcases timeline_cases now with h | h | h | h | h | h <;>
      first
      | (obtain ⟨_, _, _, _, _⟩ := h; omega)
      | (obtain ⟨_, _, _, _⟩ := h; omega)
      | skip
    obtain ⟨_, _, hc, ha, hs⟩ := h
    have hw : withinTask now 1 = 1 / 2 := by
      unfold withinTask
      rw [prevDeadline_one, currentDeadline_one]
      exact withinTask_midpoint now _ _ (by norm_num) hmid
    refine ⟨by rw [hs]; rfl, ha, by rw [ha]; exact hw, ?_⟩
    unfold progressFraction
    rw [hc, ha, hlen, hw]
    norm_num
  · push_cast at hmid ⊢
    rw [prevDeadline_two, currentDeadline_two] at hmid
    rcases timeline_cases now with h | h | h | h | h | h <;>
      first
      | (obtain ⟨_, _, _, _, _⟩ := h; omega)
      | (obtain ⟨_, _, _, _⟩ := h; omega)
      | skip
    obtain ⟨_, _, hc, ha, hs⟩ := h
    have hw : withinTask now 2 = 1 / 2 := by
      unfold withinTask
      rw [prevDeadline_two, currentDeadline_two]
      exact withinTask_midpoint now _ _ (by norm_num) hmid
    refine ⟨by rw [hs]; rfl, ha, by rw [ha]; exact hw, ?_⟩
    unfold progressFraction
    rw [hc, ha, hlen, hw]
    norm_num
  · push_cast at hmid ⊢
    rw [prevDeadline_three, currentDeadline_three] at hmid
    rcases timeline_cases now with h | h | h | h | h | h <;>
      first
      | (obtain ⟨_, _, _, _, _⟩ := h; omega)
      | (obtain ⟨_, _, _, _⟩ := h; omega)
      | skip
    obtain ⟨_, _, hc, ha, hs⟩ := h
    have hw : withinTask now 3 = 1 / 2 := by
      unfold withinTask
      rw [prevDeadline_three, currentDeadline_three]
      exact withinTask_midpoint now _ _ (by norm_num) hmid
    refine ⟨by rw [hs]; rfl, ha, by rw [ha]; exact hw, ?_⟩
    unfold progressFraction
    rw [hc, ha, hlen, hw]
    norm_num
  · push_cast at hmid ⊢
    rw [prevDeadline_four, currentDeadline_four] at hmid
    rcases timeline_cases now with h | h | h | h | h | h <;>
      first
      | (obtain ⟨_, _, _, _, _⟩ := h; omega)
      | (obtain ⟨_, _, _, _⟩ := h; omega)
      | skip
    obtain ⟨_, _, hc, ha, hs⟩ := h
    have hw : withinTask now 4 = 1 / 2 := by
      unfold withinTask
      rw [prevDeadline_four, currentDeadline_four]
      exact withinTask_midpoint now _ _ (by norm_num) hmid
    refine ⟨by rw [hs]; rfl, ha, by rw [ha]; exact hw, ?_⟩
    unfold progressFraction
    rw [hc, ha, hlen, hw]
    norm_num

/-- Witness of C5: halfway between the deadlines 2026-03-25 and 2026-05-05
(2026-04-14T12:00Z) milestone 3 is active, `activeIndex` = 2 and the fraction
is (2 + 1/2) / 5 = 1/2. -/
theorem halfway_progress_witness :
    2 * (1776168000000 : Int) = prevDeadline ((2 : Nat) : Int) + currentDeadline ((2 : Nat) : Int) ∧
    (statusLoop 1776168000000)[2]? = some Status.active ∧
    activeIndex 1776168000000 = 2 ∧
    withinTask 1776168000000 (activeIndex 1776168000000) = 1 / 2 ∧
    progressFraction 1776168000000 = 1 / 2 := by
  have hm : 2 * (1776168000000 : Int)
      = prevDeadline ((2 : Nat) : Int) + currentDeadline ((2 : Nat) : Int) := by decide
  have h := halfway_progress 2 (by decide) 1776168000000 hm
  refine ⟨hm, h.1, h.2.1, h.2.2.1, ?_⟩
  rw [h.2.2.2]
  norm_num

/-! ## Monotonicity of the progress fraction -/

theorem deadline_zero : (milestoneAt 0).deadline = 1771545600000 := by
  rw [milestoneAt_zero]
theorem deadline_one : (milestoneAt 1).deadline = 1774396800000 := by
  rw [milestoneAt_one]
theorem deadline_two : (milestoneAt 2).deadline = 1777939200000 := by
  rw [milestoneAt_two]
theorem deadline_three : (milestoneAt 3).deadline = 1782691200000 := by
  rw [milestoneAt_three]
theorem deadline_four : (milestoneAt 4).deadline = 1790726400000 := by
  rw [milestoneAt_four]

theorem progressFraction_mono_aux (t1 t2 : Int) (h : t1 ≤ t2) :
    progressFraction t1 ≤ progressFraction t2 := by
  rcases progressFraction_cases t1 with
    ⟨a1, ap⟩ | ⟨a0, a1, ap⟩ | ⟨a0, a1, ap⟩ | ⟨a0, a1, ap⟩ | ⟨a0, a1, ap⟩ | ⟨a0, ap⟩ <;>
  rcases progressFraction_cases t2 with
    ⟨b1, bp⟩ | ⟨b0, b1, bp⟩ | ⟨b0, b1, bp⟩ | ⟨b0, b1, bp⟩ | ⟨b0, b1, bp⟩ | ⟨b0, bp⟩ <;>
  first
  | (exfalso; omega)
  | (rw [ap, bp]; exact segFraction_mono _ _ _ (by norm_num) h)
  | (rw [ap, bp]
     refine le_trans (segFraction_upper _ _ _ _) (le_trans ?_ (segFraction_lower _ _ _ _))
     norm_num)
  | (rw [ap, bp]
     refine le_trans (segFraction_upper _ _ _ _) ?_
     norm_num)
  | (rw [ap, bp])

/-- C10. The progress fraction is monotonically non-decreasing in `now`; at
`now` equal to the deadline of milestone `i` (0-based) it is `(i + 1) / 5`,
and between that deadline and the next one it continues from `(i + 1) / 5`
as `(i + 1 + (now - d_i) / (d_(i+1) - d_i)) / 5`; it is 0 up to the
2026-01-01 anchor and 1 after the last deadline. -/
theorem progressFraction_monotone :
    (∀ t1 t2 : Int, t1 ≤ t2 → progressFraction t1 ≤ progressFraction t2) ∧
    (∀ i : Nat, i < 5 → progressFraction (milestoneAt i).deadline = ((i : ℚ) + 1) / 5) ∧
    (∀ i : Nat, i < 4 → ∀ now : Int,
      (milestoneAt i).deadline < now → now ≤ (milestoneAt (i + 1)).deadline →
      progressFraction now = ((i : ℚ) + 1 + ((now : ℚ) - (milestoneAt i).deadline)
        / (((milestoneAt (i + 1)).deadline : ℚ) - (milestoneAt i).deadline)) / 5) ∧
    (∀ now : Int, now ≤ projectStart → progressFraction now = 0) ∧
    (∀ now : Int, (milestoneAt 4).deadline < now → progressFraction now = 1) := by
  refine ⟨progressFraction_mono_aux, ?_, ?_, ?_, ?_⟩
  · intro i hi
    interval_cases i
    · rw [deadline_zero]
      rcases progressFraction_cases 1771545600000 with
        ⟨a1, ap⟩ | ⟨a0, a1, ap⟩ | ⟨a0, a1, ap⟩ | ⟨a0, a1, ap⟩ | ⟨a0, a1, ap⟩ | ⟨a0, ap⟩ <;>
      first
      | (exfalso; omega)
      | (rw [ap]; exact segFraction_at_end _ _ _ (by norm_num))
    · rw [deadline_one]
      rcases progressFraction_cases 1774396800000 with
        ⟨a1, ap⟩ | ⟨a0, a1, ap⟩ | ⟨a0, a1, ap⟩ | ⟨a0, a1, ap⟩ | ⟨a0, a1, ap⟩ | ⟨a0, ap⟩ <;>
      first
      | (exfalso; omega)
      | (rw [ap]; exact segFraction_at_end _ _ _ (by norm_num))
    · rw [deadline_two]
      rcases progressFraction_cases 1777939200000 with
        ⟨a1, ap⟩ | ⟨a0, a1, ap⟩ | ⟨a0, a1, ap⟩ | ⟨a0, a1, ap⟩ | ⟨a0, a1, ap⟩ | ⟨a0, ap⟩ <;>
      first
      | (exfalso; omega)
      | (rw [ap]; exact segFraction_at_end _ _ _ (by norm_num))
    · rw [deadline_three]
      rcases progressFraction_cases 1782691200000 with
        ⟨a1, ap⟩ | ⟨a0, a1, ap⟩ | ⟨a0, a1, ap⟩ | ⟨a0, a1, ap⟩ | ⟨a0, a1, ap⟩ | ⟨a0, ap⟩ <;>
      first
      | (exfalso; omega)
      | (rw [ap]; exact segFraction_at_end _ _ _ (by norm_num))
    · rw [deadline_four]
      rcases progressFraction_cases 1790726400000 with
        ⟨a1, ap⟩ | ⟨a0, a1, ap⟩ | ⟨a0, a1, ap⟩ | ⟨a0, a1, ap⟩ | ⟨a0, a1, ap⟩ | ⟨a0, ap⟩ <;>
      first
      | (exfalso; omega)
      | (rw [ap]; exact segFraction_at_end _ _ _ (by norm_num))
  · intro i hi now
    interval_cases i
    · rw [deadline_zero, deadline_one]
      intro h1 h2
      rcases progressFraction_cases now with
        ⟨a1, ap⟩ | ⟨a0, a1, ap⟩ | ⟨a0, a1, ap⟩ | ⟨a0, a1, ap⟩ | ⟨a0, a1, ap⟩ | ⟨a0, ap⟩ <;>
      first
      | (exfalso; omega)
      | (rw [ap, segFraction_inside _ _ _ _ (by omega) (by omega) (by norm_num)]; norm_num)
    · rw [deadline_one, deadline_two]
      intro h1 h2
      rcases progressFraction_cases now with
        ⟨a1, ap⟩ | ⟨a0, a1, ap⟩ | ⟨a0, a1, ap⟩ | ⟨a0, a1, ap⟩ | ⟨a0, a1, ap⟩ | ⟨a0, ap⟩ <;>
      first
      | (exfalso; omega)
      | (rw [ap, segFraction_inside _ _ _ _ (by omega) (by omega) (by norm_num)]; norm_num)
    · rw [deadline_two, deadline_three]
      intro h1 h2
      rcases progressFraction_cases now with
        ⟨a1, ap⟩ | ⟨a0, a1, ap⟩ | ⟨a0, a1, ap⟩ | ⟨a0, a1, ap⟩ | ⟨a0, a1, ap⟩ | ⟨a0, ap⟩ <;>
      first
      | (exfalso; omega)
      | (rw [ap, segFraction_inside _ _ _ _ (by omega) (by omega) (by norm_num)]; norm_num)
    · rw [deadline_three, deadline_four]
      intro h1 h2
      rcases progressFraction_cases now with
        ⟨a1, ap⟩ | ⟨a0, a1, ap⟩ | ⟨a0, a1, ap⟩ | ⟨a0, a1, ap⟩ | ⟨a0, a1, ap⟩ | ⟨a0, ap⟩ <;>
      first
      | (exfalso; omega)
      | (rw [ap, segFraction_inside _ _ _ _ (by omega) (by omega) (by norm_num)]; norm_num)
  · intro now h
    rw [projectStart_eq] at h
    rcases progressFraction_cases now with
      ⟨a1, ap⟩ | ⟨a0, a1, ap⟩ | ⟨a0, a1, ap⟩ | ⟨a0, a1, ap⟩ | ⟨a0, a1, ap⟩ | ⟨a0, ap⟩ <;>
    first
    | (exfalso; omega)
    | (rw [ap, segFraction_before _ _ _ _ (by norm_num) h]; norm_num)
  · intro now h
    rw [deadline_four] at h
    rcases progressFraction_cases now with
      ⟨a1, ap⟩ | ⟨a0, a1, ap⟩ | ⟨a0, a1, ap⟩ | ⟨a0, a1, ap⟩ | ⟨a0, a1, ap⟩ | ⟨a0, ap⟩ <;>
    first
    | (exfalso; omega)
    | exact ap

/-- Witness of C10: between 2026-04-01 and 2026-06-01 the fraction does not
decrease. -/
theorem progressFraction_monotone_witness :
    utcDate 2026 4 1 ≤ utcDate 2026 6 1 ∧
    progressFraction (utcDate 2026 4 1) ≤ progressFraction (utcDate 2026 6 1) :=
  ⟨by decide, progressFraction_monotone.1 _ _ (by decide)⟩

/-! ## Missing page elements -/

theorem timelineMarks_all_present (page : TimelinePage) (now : Int)
    (hn : ∀ t, page.hasNode t = true) (hc : ∀ t, page.hasCard t = true) :
    timelineMarks page now = (statusLoop now).map some := by
  simp [timelineMarks, statusLoop, hn, hc]

/-- C6 (the code at the failing inputs). On a page that has the three counter
elements but lacks `.timeline-container`, or lacks every timeline element, or
has no `.timeline-item`, a run of `initTimelineProgress` writes none of the
three counters; on the same page with the timeline present it writes them. -/
theorem counters_not_written_without_timeline :
    (initTimelineProgress pageWithoutContainer (utcDate 2026 4 1)).completedText = none ∧
    (initTimelineProgress pageWithoutContainer (utcDate 2026 4 1)).activeText = none ∧
    (initTimelineProgress pageWithoutContainer (utcDate 2026 4 1)).upcomingText = none ∧
    (initTimelineProgress pageWithCountersOnly (utcDate 2026 4 1)).completedText = none ∧
    (initTimelineProgress pageWithCountersOnly (utcDate 2026 4 1)).activeText = none ∧
    (initTimelineProgress pageWithCountersOnly (utcDate 2026 4 1)).upcomingText = none ∧
    (initTimelineProgress pageWithoutItems (utcDate 2026 4 1)).completedText = none ∧
    (initTimelineProgress pageWithoutItems (utcDate 2026 4 1)).activeText = none ∧
    (initTimelineProgress pageWithoutItems (utcDate 2026 4 1)).upcomingText = none ∧
    (initTimelineProgress { pageWithoutContainer with hasTimelineContainer := true }
      (utcDate 2026 4 1)).completedText = some 2 := by
  refine ⟨rfl, rfl, rfl, rfl, rfl, rfl, rfl, rfl, rfl, ?_⟩
  simp only [initTimelineProgress, pageWithoutContainer]
  decide

/-! ## Helix depth; class lists; mobile menu -/

/-- C7 (counterexample). Between depth 0 and depth 1 the strand-1 dot grows
and becomes more opaque: its radius goes from 2 to 4 and its fill opacity
from 0.3 to 0.8, so they do not vary inversely with depth. -/
theorem strand1_dot_not_inverse_in_depth :
    (0 : ℚ) ≤ 0 ∧ (0 : ℚ) ≤ 1 ∧ (1 : ℚ) ≤ 1 ∧
    ¬ (dotRadius1 1 ≤ dotRadius1 0) ∧ ¬ (dotOpacity1 1 ≤ dotOpacity1 0) ∧
    (drawSegment 100 50 0 (-1)).r1 = 2 ∧ (drawSegment 100 50 0 1).r1 = 4 := by
  norm_num [dotRadius1, dotOpacity1, drawSegment, helixDepth]

/-- C7 (amended). For depths `d1 ≤ d2` in [0, 1]: the radius and the fill
opacity of the strand-2 dot at `d2` are at most those at `d1` (they vary
inversely with depth), the radius and the fill opacity of the strand-1 dot at
`d2` are at least those at `d1` (they grow with depth), and the opacity of
the connecting line at `d2` is at least that at `d1`, strictly larger when
`d1 < d2`. -/
theorem helix_depth_monotonicity (d1 d2 : ℚ) (_h0 : 0 ≤ d1) (h12 : d1 ≤ d2) (_h1 : d2 ≤ 1) :
    dotRadius2 d2 ≤ dotRadius2 d1 ∧ dotOpacity2 d2 ≤ dotOpacity2 d1 ∧
    dotRadius1 d1 ≤ dotRadius1 d2 ∧ dotOpacity1 d1 ≤ dotOpacity1 d2 ∧
    connectorOpacity d1 ≤ connectorOpacity d2 ∧
    (d1 < d2 → connectorOpacity d1 < connectorOpacity d2) := by
  unfold dotRadius2 dotOpacity2 dotRadius1 dotOpacity1 connectorOpacity
  refine ⟨?_, ?_, ?_, ?_, ?_, fun hlt => ?_⟩ <;> norm_num <;> linarith

/-- Witness of C7 (amended) at depths 1/4 and 3/4. -/
theorem helix_depth_monotonicity_witness :
    dotRadius2 (3 / 4) ≤ dotRadius2 (1 / 4) ∧ dotOpacity2 (3 / 4) ≤ dotOpacity2 (1 / 4) ∧
    dotRadius1 (1 / 4) ≤ dotRadius1 (3 / 4) ∧ dotOpacity1 (1 / 4) ≤ dotOpacity1 (3 / 4) ∧
    connectorOpacity (1 / 4) ≤ connectorOpacity (3 / 4) ∧
    ((1 / 4 : ℚ) < 3 / 4 → connectorOpacity (1 / 4) < connectorOpacity (3 / 4)) :=
  helix_depth_monotonicity (1 / 4) (3 / 4) (by norm_num) (by norm_num) (by norm_num)

theorem mem_classRemove (cl : List String) (token t : String) :
    t ∈ classRemove cl token ↔ t ∈ cl ∧ t ≠ token := by
  simp [classRemove]

theorem not_mem_classRemove_self (cl : List String) (token : String) :
    token ∉ classRemove cl token := by
  simp [mem_classRemove]

theorem classRemove_of_not_mem (cl : List String) (token : String) (h : token ∉ cl) :
    classRemove cl token = cl := by
  unfold classRemove
  rw [List.filter_eq_self]
  intro t ht
  have : t ≠ token := fun e => h (e ▸ ht)
  simpa using this

theorem mem_classAdd_self (cl : List String) (token : String) :
    token ∈ classAdd cl token := by
  unfold classAdd
  split
  · next h => simpa using h
  · simp

theorem classToggle_of_not_mem (cl : List String) (token : String) (h : token ∉ cl) :
    classToggle cl token = cl ++ [token] := by
  simp [classToggle, h]

theorem classToggle_of_mem (cl : List String) (token : String) (h : token ∈ cl) :
    classToggle cl token = classRemove cl token := by
  simp [classToggle, h]

theorem classToggle_twice (cl : List String) (token : String) (h : token ∉ cl) :
    classToggle (classToggle cl token) token = cl := by
  rw [classToggle_of_not_mem cl token h, classToggle_of_mem _ _ (by simp)]
  unfold classRemove
  rw [List.filter_append, List.filter_eq_self.mpr]
  · simp
  · intro t ht
    have : t ≠ token := fun e => h (e ▸ ht)
    simpa using this

theorem mem_classToggle_self (cl : List String) (token : String) :
    token ∈ classToggle cl token ↔ token ∉ cl := by
  by_cases h : token ∈ cl
  · rw [classToggle_of_mem cl token h]
    simp [not_mem_classRemove_self, h]
  · rw [classToggle_of_not_mem cl token h]
    simp [h]

theorem menuStep_consistent (p : MenuPage) (e : MenuEvent) (hp : MenuConsistent p) :
    MenuConsistent (menuStep p e) := by
  obtain ⟨h, m, hh, hm, hlock, _⟩ := hp
  cases e
  · refine ⟨classToggle h "open", classToggle m "open", ?_, ?_, ?_, ?_⟩
    · simp [menuStep, hamburgerClick, hh, hm]
    · simp [menuStep, hamburgerClick, hh, hm]
    · rw [mem_classToggle_self, mem_classToggle_self, hlock]
    · simp only [menuStep, hamburgerClick, hh, hm, classContains]
      by_cases hc : "open" ∈ classToggle m "open"
      · simp [hc]
      · simp [hc]
  · refine ⟨classRemove h "open", classRemove m "open", ?_, ?_, ?_, ?_⟩
    · simp [menuStep, closeMobileMenu, hh, hm]
    · simp [menuStep, closeMobileMenu, hh, hm]
    · simp [not_mem_classRemove_self]
    · simp [menuStep, closeMobileMenu, hh, hm, not_mem_classRemove_self]

theorem menuRun_consistent (events : List MenuEvent) :
    ∀ p : MenuPage, MenuConsistent p → MenuConsistent (menuRun p events) := by
  induction events with
  | nil => intro p hp; exact hp
  | cons e rest ih =>
    intro p hp
    exact ih (menuStep p e) (menuStep_consistent p e hp)

/-- C8. When the hamburger and the menu panel both exist and start closed
(neither class list has `open`, body overflow `''`): after one toggle click
both have `open` and the body overflow is `hidden`; after two consecutive
toggle clicks both class lists and the body overflow are back to their
initial values; and after every sequence of toggle clicks and
`closeMobileMenu` calls the two elements agree on `open` and the body
overflow is `hidden` exactly when the panel is open. -/
theorem mobile_menu_toggle (h m : List String) (hh : "open" ∉ h) (hm : "open" ∉ m) :
    hamburgerClick { hamburger := some h, mobileMenu := some m, bodyOverflow := "" }
      = { hamburger := some (h ++ ["open"]), mobileMenu := some (m ++ ["open"]),
          bodyOverflow := "hidden" } ∧
    hamburgerClick (hamburgerClick
        { hamburger := some h, mobileMenu := some m, bodyOverflow := "" })
      = { hamburger := some h, mobileMenu := some m, bodyOverflow := "" } ∧
    ∀ events : List MenuEvent, ∃ h1 m1 : List String,
      (menuRun { hamburger := some h, mobileMenu := some m, bodyOverflow := "" }
        events).hamburger = some h1 ∧
      (menuRun { hamburger := some h, mobileMenu := some m, bodyOverflow := "" }
        events).mobileMenu = some m1 ∧
      ("open" ∈ h1 ↔ "open" ∈ m1) ∧
      ((menuRun { hamburger := some h, mobileMenu := some m, bodyOverflow := "" }
        events).bodyOverflow = "hidden" ↔ "open" ∈ m1) := by
  have one : hamburgerClick { hamburger := some h, mobileMenu := some m, bodyOverflow := "" }
      = { hamburger := some (h ++ ["open"]), mobileMenu := some (m ++ ["open"]),
          bodyOverflow := "hidden" } := by
    simp [hamburgerClick, classToggle_of_not_mem, hh, hm, classContains]
  refine ⟨one, ?_, ?_⟩
  · rw [one]
    have th := classToggle_twice h "open" hh
    have tm := classToggle_twice m "open" hm
    rw [classToggle_of_not_mem h "open" hh] at th
    rw [classToggle_of_not_mem m "open" hm] at tm
    simp [hamburgerClick, th, tm, classContains, hm]
  · intro events
    exact menuRun_consistent events _ ⟨h, m, rfl, rfl, by simp [hh, hm], by simp [hm]⟩

/-- Witness of C8 with class lists `hamburger` and `mobile-menu`. -/
theorem mobile_menu_toggle_witness :
    hamburgerClick (hamburgerClick
        { hamburger := some ["hamburger"], mobileMenu := some ["mobile-menu"],
          bodyOverflow := "" })
      = { hamburger := some ["hamburger"], mobileMenu := some ["mobile-menu"],
          bodyOverflow := "" } :=
  (mobile_menu_toggle ["hamburger"] ["mobile-menu"] (by decide) (by decide)).2.1

/-! ## Navbar scroll listener -/

/-- The fold of the scroll listener, started from any value of `current`. -/
theorem currentFold_none (scrollY : ℚ) (post : List PageSection)
    (hpost : ∀ t ∈ post, sectionReached scrollY t = false) (init : String) :
    post.foldl (fun current s => if sectionReached scrollY s then s.id else current) init
      = init := by
  induction post generalizing init with
  | nil => rfl
  | cons t rest ih =>
    have ht : sectionReached scrollY t = false := hpost t (List.mem_cons_self _ _)
    have hrest : ∀ u ∈ rest, sectionReached scrollY u = false :=
      fun u hu => hpost u (List.mem_cons_of_mem _ hu)
    simp only [List.foldl_cons, ht]
    exact ih hrest init

theorem highlightLink_href (current : String) (link : NavLink) :
    (highlightLink current link).href = link.href := by
  unfold highlightLink
  split <;> rfl

theorem highlightLink_active (current : String) (link : NavLink) :
    "active" ∈ (highlightLink current link).classList ↔ link.href = "#" ++ current := by
  unfold highlightLink
  by_cases h : link.href = "#" ++ current
  · simp only [h, if_true]
    simp [mem_classAdd_self]
  · simp only [h, if_false]
    simp [not_mem_classRemove_self]

/-- C9. For every list of sections (in document order), every scroll offset
and every list of nav links, on a page with a navbar the scroll listener
completes; `current` is the id of the last section of the list with
`offsetTop - 120 <= scrollY`, and the empty string when no section satisfies
that; afterwards the links are the same links in the same order, and a link
has class `active` if and only if its href equals `'#' + current`. -/
theorem scroll_highlights_current_section (nb : List String) (links : List NavLink)
    (sections : List PageSection) (scrollY : ℚ) :
    ((∀ s ∈ sections, ¬ ((s.offsetTop - 120 : Int) : ℚ) ≤ scrollY) →
      currentSection sections scrollY = "") ∧
    (∀ (pre post : List PageSection) (s : PageSection), sections = pre ++ s :: post →
      ((s.offsetTop - 120 : Int) : ℚ) ≤ scrollY →
      (∀ t ∈ post, ¬ ((t.offsetTop - 120 : Int) : ℚ) ≤ scrollY) →
      currentSection sections scrollY = s.id) ∧
    ∃ p1 : NavPage,
      onScroll { navbar := some nb, navLinks := links, sections := sections,
                 scrollY := scrollY } = some p1 ∧
      p1.navLinks.map (fun l => l.href) = links.map (fun l => l.href) ∧
      (∀ i : Nat, ∀ l0 l1 : NavLink, links[i]? = some l0 → p1.navLinks[i]? = some l1 →
        (l1.href = l0.href ∧
          ("active" ∈ l1.classList ↔ l1.href = "#" ++ currentSection sections scrollY))) := by
  refine ⟨?_, ?_, ?_⟩
  · intro hnone
    unfold currentSection
    exact currentFold_none scrollY sections
      (fun t ht => by simpa [sectionReached] using hnone t ht) ""
  · intro pre post s hsplit hs hpost
    unfold currentSection
    rw [hsplit, List.foldl_append, List.foldl_cons]
    have hs1 : sectionReached scrollY s = true := by simpa [sectionReached] using hs
    rw [if_pos hs1]
    exact currentFold_none scrollY post
      (fun t ht => by simpa [sectionReached] using hpost t ht) s.id
  · refine ⟨_, rfl, ?_, ?_⟩
    · simp [Function.comp_def, highlightLink_href]
    · intro i l0 l1 h0 h1
      simp only [List.getElem?_map, h0, Option.map_some', Option.some.injEq] at h1
      subst h1
      rw [highlightLink_href]
      exact ⟨rfl, highlightLink_active _ _⟩

/-- Witness of C9: sections `hero` (top 0), `about` (top 600) and `team`
(top 1400) at scroll offset 700: the last section reached is `about`. -/
theorem scroll_highlights_current_section_witness :
    currentSection [⟨"hero", 0⟩, ⟨"about", 600⟩, ⟨"team", 1400⟩] 700 = "about" :=
  (scroll_highlights_current_section [] [] [⟨"hero", 0⟩, ⟨"about", 600⟩, ⟨"team", 1400⟩]
    700).2.1 [⟨"hero", 0⟩] [⟨"team", 1400⟩] ⟨"about", 600⟩ rfl (by norm_num)
    (by intro t ht; simp at ht; subst ht; norm_num)

end Audentes
